import Mathlib

/-!
Shallow embedding of `src/python/remote_shell/remote_shell.py`
(class `MistSocket` and the session start-up path).

Machine-level conventions used throughout:
* bytes are `Nat` values (< 256 where the code guarantees it);
* Python exceptions that escape a function are modelled with `Except Err _`,
  while exceptions that the code catches with a bare `except:` are folded
  into the ordinary return value (the handler's prints appear as effects);
* the observable behaviour of a call is a `List Effect` recording, in program
  order, everything the call does to the outside world (wire sends, stdout
  writes, console prints, raw-socket operations, stopping the keyboard
  listener, probing the terminal size).
-/

namespace RemoteShell

/-- A frame on the WebSocket wire: `ws.send` (text) or `ws.send_binary`. -/
inductive Frame where
  | text (s : String)
  | binary (payload : List Nat)
  deriving DecidableEq, Repr

/-- One observable action of the program. `display` is `sys.stdout.write` of a
decoded chunk (given as Unicode code points); `consolePrint` is a `print(..)`
diagnostic; `sockShutdown` / `sockClose` are `ws.sock.shutdown(2)` /
`ws.sock.close()` on the raw socket; `stopListening` is sshkeyboard's
`stop_listening()`; `probe` is the `shutil.get_terminal_size()` query. -/
inductive Effect where
  | display (out : List Nat)
  | consolePrint (msg : String)
  | sockShutdown
  | sockClose
  | stopListening
  | wireSend (f : Frame)
  | probe
  deriving DecidableEq, Repr

/-- An exception escaping a callback uncaught. `valueError` is
`bytearray.extend` fed an `ord` above 255; `osError` is a raw-socket
operation on an already closed socket. -/
inductive Err where
  | valueError
  | osError
  deriving DecidableEq, Repr

/-- The mutable state shared by the two loops.
`connected` is the websocket-client `ws.connected` flag: the library sets it
`False` only inside `WebSocket.close`/`WebSocket.shutdown`, which this script
never calls — the exit path touches only the raw socket `ws.sock`, so the
flag survives the sentinel.  `sockOpen` tracks whether the raw socket has
been closed by `ws.sock.close()`.  `transportUp` abstracts whether a
`send_binary` on the underlying transport succeeds or raises.  `listening`
is whether the sshkeyboard facility is still delivering key events. -/
structure OutState where
  connected : Bool
  sockOpen : Bool
  transportUp : Bool
  listening : Bool
  deriving DecidableEq, Repr

/-- The state of a freshly started session: connected, raw socket open,
transport healthy, keyboard listener running. -/
def activeState : OutState := ⟨true, true, true, true⟩

/-- The key → byte-sequence translation of `_ws_out` (the `if`/`elif` chain
at lines 163-186).  `none` marks the `"~"` exit sentinel, which is handled
specially and never mapped to a sequence. -/
def mapKey (key : String) : Option String :=
  if key = "enter" then some "\n"
  else if key = "space" then some " "
  else if key = "tab" then some "\t"
  else if key = "up" then some "\x00\x1b[A"
  else if key = "right" then some "\x00\x1b[C"
  else if key = "down" then some "\x00\x1b[B"
  else if key = "left" then some "\x00\x1b[D"
  else if key = "backspace" then some "\x08"
  else if key = "~" then none
  else some key

/-- `data_byte.extend(map(ord, data))`: each character contributes its code
point as one byte; `bytearray` rejects any value above 255 with a
`ValueError` (these are the characters' code points, not their UTF-8
encoding). -/
def ordBytes (s : List Char) : Option (List Nat) :=
  if s.all (fun c => c.toNat ≤ 255) then some (s.map Char.toNat) else none

/-- Exit-notice print of the sentinel branch. -/
def exitMsg : String := "## Exit from shell pressed ##"

/-- Diagnostic printed by `_ws_out` when `send_binary` raises. -/
def keyErrMsg : String := "## Exception on key-enter thread. Perhaps lost connection ##"

/-- Diagnostic printed by `_ws_in` when `recv` or the decode raises. -/
def listenErrMsg : String := "## Exception on listen thread. Perhaps lost connection ##"

/-- `MistSocket._ws_out(key)` (lines 153-194), one keyboard callback.
Mirrors the source line by line: bail out when `not ws.connected` or the key
is empty; the `"~"` branch prints the notice then calls
`ws.sock.shutdown(2)`, `ws.sock.close()`, `stop_listening()` (a `shutdown`
on an already closed raw socket raises `OSError`, uncaught here); any other
key is mapped, `data = "\x00" + k` is converted with `map(ord, ...)` into a
`bytearray` (a `ValueError` there is outside the `try` and escapes), and
only the final `send_binary` sits inside the `try`, whose handler prints
`keyErrMsg` and returns. -/
def wsOut (st : OutState) (key : String) : Except Err (OutState × List Effect) :=
  if st.connected then
    if key = "" then .ok (st, [])
    else
      match mapKey key with
      | none =>
          if st.sockOpen then
            .ok ({ st with sockOpen := false, listening := false },
                 [.consolePrint exitMsg, .sockShutdown, .sockClose, .stopListening])
          else .error .osError
      | some k =>
          match ordBytes ('\x00' :: k.data) with
          | none => .error .valueError
          | some bytes =>
              if st.transportUp then .ok (st, [.wireSend (.binary bytes)])
              else .ok (st, [.consolePrint keyErrMsg])
  else .ok (st, [])

/-- Is a byte a UTF-8 continuation byte (`10xxxxxx`)? -/
def isCont (b : Nat) : Bool := 128 ≤ b && b < 192

/-- Strict UTF-8 decoding of a byte list into Unicode code points, as CPython's
`bytes.decode("utf-8")`: rejects stray continuation bytes, truncated
sequences, overlong encodings, surrogate code points and values above
U+10FFFF.  `none` models a `UnicodeDecodeError`. -/
def utf8Decode : List Nat → Option (List Nat)
  | [] => some []
  | b :: rest =>
    if b < 128 then (utf8Decode rest).map (b :: ·)
    else if b < 194 then none
    else if b < 224 then
      match rest with
      | b1 :: rest1 =>
        if isCont b1 then (utf8Decode rest1).map (((b - 192) * 64 + (b1 - 128)) :: ·)
        else none
      | [] => none
    else if b < 240 then
      match rest with
      | b1 :: b2 :: rest2 =>
        if isCont b1 && isCont b2 then
          let cp := (b - 224) * 4096 + (b1 - 128) * 64 + (b2 - 128)
          if cp < 2048 then none
          else if 55296 ≤ cp && cp ≤ 57343 then none
          else (utf8Decode rest2).map (cp :: ·)
        else none
      | _ => none
    else if b < 245 then
      match rest with
      | b1 :: b2 :: b3 :: rest3 =>
        if isCont b1 && isCont b2 && isCont b3 then
          let cp := (b - 240) * 262144 + (b1 - 128) * 4096 + (b2 - 128) * 64 + (b3 - 128)
          if cp < 65536 then none
          else if 1114111 < cp then none
          else (utf8Decode rest3).map (cp :: ·)
        else none
      | _ => none
    else none

/-- Lines 145-146 of `_ws_in`: `line = data.decode('utf-8')` followed by
`output = re.sub('[\x00]', '', line)` — decode as UTF-8, then delete every
U+0000 character from the decoded text. -/
def decodeInbound (raw : List Nat) : Option (List Nat) :=
  (utf8Decode raw).map (List.filter (fun cp => cp ≠ 0))

/-- One result of a blocking `ws.recv()` call: a data chunk, or an exception
(connection loss / EOF-induced error). -/
inductive RecvResult where
  | chunk (bytes : List Nat)
  | recvError
  deriving DecidableEq, Repr

/-- `MistSocket._ws_in` (lines 135-151) run against a finite script of
`recv` outcomes.  Per iteration: `data = self.ws.recv()`; a falsy (empty)
chunk is skipped; otherwise the chunk is decoded, NUL-stripped and written
to stdout.  The bare `except:` around the body catches both a `recv`
failure and a `UnicodeDecodeError`, prints `listenErrMsg` and `return`s —
exiting the loop in both cases.  The returned Bool is `true` when the loop
exited through that handler; `false` means the script was exhausted with
the loop still blocked on the next `recv`. -/
def wsIn : List RecvResult → List Effect × Bool
  | [] => ([], false)
  | .recvError :: _ => ([.consolePrint listenErrMsg], true)
  | .chunk bytes :: rest =>
    if bytes = [] then wsIn rest
    else
      match decodeInbound bytes with
      | none => ([.consolePrint listenErrMsg], true)
      | some out =>
          let (effs, exited) := wsIn rest
          (.display out :: effs, exited)

/-- The local terminal environment as seen by `shutil.get_terminal_size()`:
`some (cols, rows)` when the controlling terminal reports a size, `none`
when the size is unavailable.  The stdlib contract of
`shutil.get_terminal_size` returns `(columns, lines)` and falls back to its
default `(80, 24)` when the query fails. -/
def getTerminalSize (env : Option (Nat × Nat)) : Nat × Nat :=
  env.getD (80, 24)

/-- `MistSocket._pty_size` (lines 116-126): `rows, cols = 24, 80` is
immediately overwritten by `cols, rows = shutil.get_terminal_size()`;
returns `(rows, cols)`. -/
def ptySize (env : Option (Nat × Nat)) : Nat × Nat :=
  let (cols, rows) := getTerminalSize env
  (rows, cols)

/-- A minimal JSON value grammar, enough for the frames this program emits. -/
inductive Json where
  | num : Nat → Json
  | obj : List (String × Json) → Json

mutual

/-- Python `json.dumps` with its default separators `", "` and `": "`. -/
def dumps : Json → String
  | .num n => toString n
  | .obj fs => "\x7b" ++ dumpsFields fs ++ "\x7d"

/-- Comma-joined `"key": value` members, in insertion order (Python dicts
preserve it). -/
def dumpsFields : List (String × Json) → String
  | [] => ""
  | [(k, v)] => "\"" ++ k ++ "\": " ++ dumps v
  | (k, v) :: f :: fs => "\"" ++ k ++ "\": " ++ dumps v ++ ", " ++ dumpsFields (f :: fs)

end

/-- The structured value serialized by `_resize` (line 133):
`json.dumps({'resize': {'width': cols, 'height': rows}})`. -/
def resizeValue (rows cols : Nat) : Json :=
  .obj [("resize", .obj [("width", .num cols), ("height", .num rows)])]

/-- The resize text frame exactly as `_resize` sends it. -/
def resizeFrame (rows cols : Nat) : String := dumps (resizeValue rows cols)

/-- Modelled from the spec: the bit-exact first-frame requirement
`\x7b"resize":\x7b"width":<cols>,"height":<rows>\x7d\x7d` of §6, written
without `json.dumps`'s optional whitespace (whitespace between JSON tokens
is insignificant, hence "JSON-equal"). -/
def specResizeFrame (rows cols : Nat) : String :=
  "\x7b\"resize\":\x7b\"width\":" ++ toString cols ++ ",\"height\":" ++ toString rows ++ "\x7d\x7d"

/-- Modelled from the spec: the structured JSON value
`\x7b"resize": \x7b"width": cols, "height": rows\x7d\x7d` that
`encodeResizeFrame(rows, cols)` of §4.2 must serialize. -/
def specResizeValue (rows cols : Nat) : Json :=
  .obj [("resize", .obj [("width", .num cols), ("height", .num rows)])]

/-- Drop the insignificant inter-token whitespace `json.dumps` inserts (no
string in these frames contains a space, so this is JSON-token-preserving). -/
def stripSpaces (s : String) : String := (s.data.filter (fun c => c ≠ ' ')).asString

/-- `MistSocket._resize` (lines 128-133): probe the terminal once, then send
the resize JSON as a text frame. -/
def resizeEffects (env : Option (Nat × Nat)) : List Effect :=
  let (rows, cols) := ptySize env
  [.probe, .wireSend (.text (resizeFrame rows cols))]

/-- The keyboard-event loop: `listen_keyboard(on_release=self._ws_out, ...)`
invokes `wsOut` once per key event while the facility is listening;
`stop_listening()` (clearing `listening`) stops the delivery of further
events.  An exception escaping a callback ends the modelled run with no
further recorded effects. -/
def keyLoop : OutState → List String → OutState × List Effect
  | st, [] => (st, [])
  | st, k :: ks =>
    if st.listening then
      match wsOut st k with
      | .error _ => (st, [])
      | .ok (st', effs) =>
          let (st'', rest) := keyLoop st' ks
          (st'', effs ++ rest)
    else (st, [])

/-- Outbound side of `MistSocket.start` (lines 102-114): after
`create_connection`, `_resize()` runs first, and only then does
`listen_keyboard` begin dispatching key events to `_ws_out`.  The inbound
thread never sends, so these are all the effects of the single sender, in
program order. -/
def sessionOutEffects (env : Option (Nat × Nat)) (keys : List String) : List Effect :=
  resizeEffects env ++ (keyLoop activeState keys).2

/-- The wire frames contained in an effect trace, in order. -/
def wireFrames (effs : List Effect) : List Frame :=
  effs.filterMap (fun e => match e with | .wireSend f => some f | _ => none)

/-- All frames a session puts on the wire, in send order. -/
def sessionWireFrames (env : Option (Nat × Nat)) (keys : List String) : List Frame :=
  wireFrames (sessionOutEffects env keys)

/-- A whole-session effect trace: the start-up effects, then the two loops'
effects.  The two loops interleave in real time; the concatenation order
chosen here is irrelevant to every property stated below (counting and
membership of effects), so one representative order suffices. -/
def sessionTrace (env : Option (Nat × Nat)) (keys : List String)
    (script : List RecvResult) : List Effect :=
  sessionOutEffects env keys ++ (wsIn script).1

/-- Is this effect a wire send? -/
def isWireSend : Effect → Bool
  | .wireSend _ => true
  | _ => false

/-- Is this frame a binary (keystroke) frame? -/
def isBinaryFrame : Frame → Bool
  | .binary _ => true
  | _ => false

/-- Is this effect the terminal-size probe? -/
def isProbe : Effect → Bool
  | .probe => true
  | _ => false

/-- Does this effect act on the shared connection's raw socket? -/
def closesConnection : Effect → Bool
  | .sockShutdown => true
  | .sockClose => true
  | _ => false

/-- The effects the keyboard-event loop can produce: console prints, raw
socket operations, stopping the listener, and binary wire sends — never a
display, a probe, or a text frame. -/
def keyEffOk : Effect → Bool
  | .display _ => false
  | .probe => false
  | .wireSend (.text _) => false
  | _ => true

/-- The effects the inbound loop can produce: stdout displays and console
prints only. -/
def inEffOk : Effect → Bool
  | .display _ => true
  | .consolePrint _ => true
  | _ => false

/-! ## Helper lemmas -/

/-- Exhaustive description of the effect lists a single `_ws_out` callback
can produce when it returns normally. -/
lemma wsOut_ok_effects (st : OutState) (key : String) (st' : OutState) (effs : List Effect)
    (h : wsOut st key = .ok (st', effs)) :
    effs = [] ∨
    effs = [.consolePrint exitMsg, .sockShutdown, .sockClose, .stopListening] ∨
    effs = [.consolePrint keyErrMsg] ∨
    ∃ bs, effs = [.wireSend (.binary bs)] := by
  unfold wsOut at h
  repeat' split at h
  all_goals simp only [Except.ok.injEq, Prod.mk.injEq, reduceCtorEq] at h
  all_goals obtain ⟨h1, h2⟩ := h
  all_goals subst h2
  · exact Or.inl rfl
  · exact Or.inr (Or.inl rfl)
  · exact Or.inr (Or.inr (Or.inr ⟨_, rfl⟩))
  · exact Or.inr (Or.inr (Or.inl rfl))
  · exact Or.inl rfl

/-- Every effect of a normally returning `_ws_out` call is an
outbound-loop effect (no display, no probe, no text frame). -/
lemma wsOut_keyEffOk (st : OutState) (key : String) (st' : OutState) (effs : List Effect)
    (h : wsOut st key = .ok (st', effs)) : effs.all keyEffOk = true := by
  rcases wsOut_ok_effects st key st' effs h with h' | h' | h' | ⟨bs, h'⟩ <;> subst h' <;> rfl

/-- Every effect of the keyboard-event loop is an outbound-loop effect. -/
lemma keyLoop_keyEffOk : ∀ (keys : List String) (st : OutState),
    (keyLoop st keys).2.all keyEffOk = true := by
  intro keys
  induction keys with
  | nil => intro st; rfl
  | cons k ks ih =>
      intro st
      unfold keyLoop
      split
      · rcases hw : wsOut st k with e | ⟨st', effs⟩ <;> simp only [hw]
        · rfl
        · have h1 := wsOut_keyEffOk st k st' effs hw
          have h2 := ih st'
          show (effs ++ (keyLoop st' ks).2).all keyEffOk = true
          rw [List.all_append, Bool.and_eq_true]
          exact ⟨h1, h2⟩
      · rfl

/-- Every effect of the inbound loop is a display or a console print. -/
lemma wsIn_inEffOk : ∀ script : List RecvResult, (wsIn script).1.all inEffOk = true := by
  intro script
  induction script with
  | nil => rfl
  | cons r rest ih =>
      cases r with
      | recvError => rfl
      | chunk bytes =>
          unfold wsIn
          split
          · exact ih
          · split
            · rfl
            · simp only [List.all_cons, Bool.and_eq_true]
              exact ⟨rfl, ih⟩

/-- The session's wire frames are the resize text frame followed by the key
loop's frames. -/
lemma sessionWireFrames_eq (env : Option (Nat × Nat)) (keys : List String) :
    sessionWireFrames env keys
      = .text (resizeFrame (ptySize env).1 (ptySize env).2)
        :: wireFrames (keyLoop activeState keys).2 := by
  show wireFrames (resizeEffects env ++ (keyLoop activeState keys).2) = _
  rw [show resizeEffects env
        = [.probe, .wireSend (.text (resizeFrame (ptySize env).1 (ptySize env).2))] from rfl]
  rw [wireFrames, List.filterMap_append]
  rfl

/-- Effects satisfying `keyEffOk` contribute only binary frames to the wire. -/
lemma wireFrames_binary (effs : List Effect) (h : effs.all keyEffOk = true) :
    (wireFrames effs).all isBinaryFrame = true := by
  rw [List.all_eq_true] at h ⊢
  intro f hf
  rw [wireFrames, List.mem_filterMap] at hf
  obtain ⟨e, he, hfe⟩ := hf
  have hk := h e he
  cases e with
  | wireSend g =>
      cases hfe
      cases f with
      | text s => exact Bool.noConfusion hk
      | binary bs => rfl
  | display out => exact Option.noConfusion hfe
  | consolePrint m => exact Option.noConfusion hfe
  | sockShutdown => exact Option.noConfusion hfe
  | sockClose => exact Option.noConfusion hfe
  | stopListening => exact Option.noConfusion hfe
  | probe => exact Option.noConfusion hfe

/-! UTF-8 decoder unfolding lemmas and the NUL-stripping commutation. -/

lemma utf8Decode_cons (b : Nat) (rest : List Nat) :
    utf8Decode (b :: rest) =
      (if b < 128 then (utf8Decode rest).map (b :: ·)
      else if b < 194 then none
      else if b < 224 then
        match rest with
        | b1 :: rest1 =>
          if isCont b1 then (utf8Decode rest1).map (((b - 192) * 64 + (b1 - 128)) :: ·)
          else none
        | [] => none
      else if b < 240 then
        match rest with
        | b1 :: b2 :: rest2 =>
          if isCont b1 && isCont b2 then
            let cp := (b - 224) * 4096 + (b1 - 128) * 64 + (b2 - 128)
            if cp < 2048 then none
            else if 55296 ≤ cp && cp ≤ 57343 then none
            else (utf8Decode rest2).map (cp :: ·)
          else none
        | _ => none
      else if b < 245 then
        match rest with
        | b1 :: b2 :: b3 :: rest3 =>
          if isCont b1 && isCont b2 && isCont b3 then
            let cp := (b - 240) * 262144 + (b1 - 128) * 4096 + (b2 - 128) * 64 + (b3 - 128)
            if cp < 65536 then none
            else if 1114111 < cp then none
            else (utf8Decode rest3).map (cp :: ·)
          else none
        | _ => none
      else none) := by
  cases rest with
  | nil => rfl
  | cons b1 r1 =>
    cases r1 with
    | nil => rfl
    | cons b2 r2 => cases r2 <;> rfl

lemma utf8Decode_ascii (b : Nat) (rest : List Nat) (h : b < 128) :
    utf8Decode (b :: rest) = (utf8Decode rest).map (b :: ·) := by
  rw [utf8Decode_cons, if_pos h]

lemma utf8Decode_two (b b1 : Nat) (rest : List Nat) (h1 : ¬b < 128) (h1' : ¬b < 194)
    (h2 : b < 224) (hc : isCont b1 = true) :
    utf8Decode (b :: b1 :: rest)
      = (utf8Decode rest).map (((b - 192) * 64 + (b1 - 128)) :: ·) := by
  rw [utf8Decode_cons, if_neg h1, if_neg h1', if_pos h2]
  simp [hc]

lemma utf8Decode_three (b b1 b2 : Nat) (rest : List Nat) (h1 : ¬b < 128) (h1' : ¬b < 194)
    (h2 : ¬b < 224) (h3 : b < 240) (hc : (isCont b1 && isCont b2) = true)
    (hlo : ¬(b - 224) * 4096 + (b1 - 128) * 64 + (b2 - 128) < 2048)
    (hsur : ¬(decide (55296 ≤ (b - 224) * 4096 + (b1 - 128) * 64 + (b2 - 128)) &&
              decide ((b - 224) * 4096 + (b1 - 128) * 64 + (b2 - 128) ≤ 57343)) = true) :
    utf8Decode (b :: b1 :: b2 :: rest)
      = (utf8Decode rest).map (((b - 224) * 4096 + (b1 - 128) * 64 + (b2 - 128)) :: ·) := by
  rw [utf8Decode_cons, if_neg h1, if_neg h1', if_neg h2, if_pos h3]
  simp only [hc, if_true]
  rw [if_neg hlo, if_neg hsur]

lemma utf8Decode_four (b b1 b2 b3 : Nat) (rest : List Nat) (h1 : ¬b < 128) (h1' : ¬b < 194)
    (h2 : ¬b < 224) (h3 : ¬b < 240) (h4 : b < 245)
    (hc : (isCont b1 && isCont b2 && isCont b3) = true)
    (hlo : ¬(b - 240) * 262144 + (b1 - 128) * 4096 + (b2 - 128) * 64 + (b3 - 128) < 65536)
    (hhi : ¬1114111 < (b - 240) * 262144 + (b1 - 128) * 4096 + (b2 - 128) * 64 + (b3 - 128)) :
    utf8Decode (b :: b1 :: b2 :: b3 :: rest)
      = (utf8Decode rest).map
          (((b - 240) * 262144 + (b1 - 128) * 4096 + (b2 - 128) * 64 + (b3 - 128)) :: ·) := by
  rw [utf8Decode_cons, if_neg h1, if_neg h1', if_neg h2, if_neg h3, if_pos h4]
  simp only [hc, if_true]
  rw [if_neg hlo, if_neg hhi]


lemma isCont_ge (b : Nat) (h : isCont b = true) : 128 ≤ b ∧ b < 192 := by
  rw [isCont, Bool.and_eq_true, decide_eq_true_eq, decide_eq_true_eq] at h
  exact h

lemma utf8Decode_filter_nz : ∀ (raw : List Nat), ∀ (cps : List Nat), utf8Decode raw = some cps →
    utf8Decode (raw.filter (fun b => b ≠ 0)) = some (cps.filter (fun cp => cp ≠ 0)) := by
  intro raw
  induction raw using utf8Decode.induct
  case case1 =>
    intro cps h
    cases h
    rfl
  case case2 b rest hlt ih =>
    intro cps h
    rw [utf8Decode_ascii b rest hlt] at h
    obtain ⟨tl, htl, hcps⟩ := Option.map_eq_some'.mp h
    subst hcps
    by_cases hb : b = 0
    · subst hb
      rw [List.filter_cons, List.filter_cons, if_neg (by simp), if_neg (by simp)]
      exact ih tl htl
    · rw [List.filter_cons, List.filter_cons, if_pos (by simp [hb]), if_pos (by simp [hb])]
      rw [utf8Decode_ascii _ _ hlt, ih tl htl]
      rfl
  case case3 b rest h1 h2 =>
    intro cps h
    rw [utf8Decode_cons, if_neg h1, if_pos h2] at h
    exact Option.noConfusion h
  case case4 b h1 h1' h2 b1 rest1 hc ih =>
    intro cps h
    rw [utf8Decode_two b b1 rest1 h1 h1' h2 hc] at h
    obtain ⟨tl, htl, hcps⟩ := Option.map_eq_some'.mp h
    subst hcps
    have hbc := isCont_ge b1 hc
    rw [List.filter_cons, List.filter_cons, List.filter_cons,
        if_pos (by simp; omega), if_pos (by simp; omega), if_pos (by simp; omega)]
    rw [utf8Decode_two b b1 _ h1 h1' h2 hc, ih tl htl]
    rfl
  case case5 b h1 h1' h2 b1 rest1 hnc =>
    intro cps h
    rw [utf8Decode_cons, if_neg h1, if_neg h1', if_pos h2] at h
    simp [hnc] at h
  case case6 b h1 h1' h2 =>
    intro cps h
    rw [utf8Decode_cons, if_neg h1, if_neg h1', if_pos h2] at h
    simp at h
  case case7 b h1 h1' h2 h3 b1 b2 rest2 hc cp hlo =>
    intro cps h
    rw [utf8Decode_cons, if_neg h1, if_neg h1', if_neg h2, if_pos h3] at h
    simp only [hc, if_true] at h
    rw [if_pos hlo] at h
    exact Option.noConfusion h
  case case8 b h1 h1' h2 h3 b1 b2 rest2 hc cp hlo hsur =>
    intro cps h
    rw [utf8Decode_cons, if_neg h1, if_neg h1', if_neg h2, if_pos h3] at h
    simp only [hc, if_true] at h
    rw [if_neg hlo, if_pos hsur] at h
    exact Option.noConfusion h
  case case9 b h1 h1' h2 h3 b1 b2 rest2 hc cp hlo hsur ih =>
    intro cps h
    rw [utf8Decode_three b b1 b2 rest2 h1 h1' h2 h3 hc hlo hsur] at h
    obtain ⟨tl, htl, hcps⟩ := Option.map_eq_some'.mp h
    subst hcps
    have hc' := hc
    rw [Bool.and_eq_true] at hc'
    have hbc1 := isCont_ge b1 hc'.1
    have hbc2 := isCont_ge b2 hc'.2
    have hlo' : ¬(b - 224) * 4096 + (b1 - 128) * 64 + (b2 - 128) < 2048 := hlo
    rw [List.filter_cons, List.filter_cons, List.filter_cons, List.filter_cons,
        if_pos (by simp; omega), if_pos (by simp; omega), if_pos (by simp; omega),
        if_pos (by simp; omega)]
    rw [utf8Decode_three b b1 b2 _ h1 h1' h2 h3 hc hlo hsur, ih tl htl]
    rfl
  case case10 b h1 h1' h2 h3 b1 b2 rest2 hnc =>
    intro cps h
    rw [utf8Decode_cons, if_neg h1, if_neg h1', if_neg h2, if_pos h3] at h
    simp [hnc] at h
  case case11 b rest h1 h1' h2 h3 hshape =>
    intro cps h
    rw [utf8Decode_cons, if_neg h1, if_neg h1', if_neg h2, if_pos h3] at h
    rcases rest with _ | ⟨b1, _ | ⟨b2, rest2⟩⟩
    · simp at h
    · simp at h
    · exact (hshape b1 b2 rest2 rfl).elim
  case case12 b h1 h1' h2 h3 h4 b1 b2 b3 rest3 hc cp hlo =>
    intro cps h
    rw [utf8Decode_cons, if_neg h1, if_neg h1', if_neg h2, if_neg h3, if_pos h4] at h
    simp only [hc, if_true] at h
    rw [if_pos hlo] at h
    exact Option.noConfusion h
  case case13 b h1 h1' h2 h3 h4 b1 b2 b3 rest3 hc cp hlo hhi =>
    intro cps h
    rw [utf8Decode_cons, if_neg h1, if_neg h1', if_neg h2, if_neg h3, if_pos h4] at h
    simp only [hc, if_true] at h
    rw [if_neg hlo, if_pos hhi] at h
    exact Option.noConfusion h
  case case14 b h1 h1' h2 h3 h4 b1 b2 b3 rest3 hc cp hlo hhi ih =>
    intro cps h
    rw [utf8Decode_four b b1 b2 b3 rest3 h1 h1' h2 h3 h4 hc hlo hhi] at h
    obtain ⟨tl, htl, hcps⟩ := Option.map_eq_some'.mp h
    subst hcps
    have hc' := hc
    rw [Bool.and_eq_true, Bool.and_eq_true] at hc'
    have hbc1 := isCont_ge b1 hc'.1.1
    have hbc2 := isCont_ge b2 hc'.1.2
    have hbc3 := isCont_ge b3 hc'.2
    have hlo' : ¬(b - 240) * 262144 + (b1 - 128) * 4096 + (b2 - 128) * 64 + (b3 - 128) < 65536 := hlo
    rw [List.filter_cons, List.filter_cons, List.filter_cons, List.filter_cons, List.filter_cons,
        if_pos (by simp; omega), if_pos (by simp; omega), if_pos (by simp; omega),
        if_pos (by simp; omega), if_pos (by simp; omega)]
    rw [utf8Decode_four b b1 b2 b3 _ h1 h1' h2 h3 h4 hc hlo hhi, ih tl htl]
    rfl
  case case15 b h1 h1' h2 h3 h4 b1 b2 b3 rest3 hnc =>
    intro cps h
    rw [utf8Decode_cons, if_neg h1, if_neg h1', if_neg h2, if_neg h3, if_pos h4] at h
    simp [hnc] at h
  case case16 b rest h1 h1' h2 h3 h4 hshape =>
    intro cps h
    rw [utf8Decode_cons, if_neg h1, if_neg h1', if_neg h2, if_neg h3, if_pos h4] at h
    rcases rest with _ | ⟨b1, _ | ⟨b2, _ | ⟨b3, rest3⟩⟩⟩
    · simp at h
    · simp at h
    · simp at h
    · exact (hshape b1 b2 b3 rest3 rfl).elim
  case case17 b rest h1 h1' h2 h3 h4 =>
    intro cps h
    rw [utf8Decode_cons, if_neg h1, if_neg h1', if_neg h2, if_neg h3, if_neg h4] at h
    exact Option.noConfusion h


/-- `bytearray.extend(map(ord, ...))` succeeds when every character fits in
a byte, yielding the code points. -/
lemma ordBytes_le255 (k : String) (hall : ∀ c ∈ k.data, c.toNat ≤ 255) :
    ordBytes ('\x00' :: k.data) = some (0 :: k.data.map Char.toNat) := by
  rw [ordBytes, if_pos]
  · rfl
  · rw [List.all_cons, Bool.and_eq_true]
    refine ⟨by decide, ?_⟩
    rw [List.all_eq_true]
    intro c hc
    exact decide_eq_true (hall c hc)

/-- `bytearray.extend(map(ord, ...))` raises `ValueError` when some
character's code point exceeds 255. -/
lemma ordBytes_gt255 (k : String) (hex : ∃ c ∈ k.data, 255 < c.toNat) :
    ordBytes ('\x00' :: k.data) = none := by
  rw [ordBytes, if_neg]
  intro hall
  rw [List.all_cons, Bool.and_eq_true, List.all_eq_true] at hall
  obtain ⟨c, hc, hgt⟩ := hex
  exact absurd (of_decide_eq_true (hall.2 c hc)) (not_le.mpr hgt)

/-- The net effect of one `_ws_out` call on the raw socket: the number of
`sock.close()` calls it performs plus the socket's state afterwards equals
the socket's state before (the sentinel closes an open socket exactly once;
every other normal return leaves the socket alone). -/
lemma wsOut_close_count (st : OutState) (key : String) (st' : OutState) (effs : List Effect)
    (h : wsOut st key = .ok (st', effs)) :
    effs.count Effect.sockClose + st'.sockOpen.toNat = st.sockOpen.toNat := by
  unfold wsOut at h
  repeat' split at h
  all_goals simp only [Except.ok.injEq, Prod.mk.injEq, reduceCtorEq] at h
  all_goals obtain ⟨h1, h2⟩ := h
  all_goals subst h2
  all_goals subst h1
  · simp
  · rename_i hso
    rw [hso]
    simp [List.count_cons, beq_iff_eq]
  · simp [List.count_cons, beq_iff_eq]
  · simp [List.count_cons]
  · simp

/-- Over any key sequence, the closes performed plus the final socket state
equal the initial socket state. -/
lemma keyLoop_close_count : ∀ (keys : List String) (st : OutState),
    (keyLoop st keys).2.count Effect.sockClose + ((keyLoop st keys).1).sockOpen.toNat
      = st.sockOpen.toNat := by
  intro keys
  induction keys with
  | nil => intro st; simp [keyLoop]
  | cons k ks ih =>
      intro st
      unfold keyLoop
      split
      · rcases hw : wsOut st k with e | ⟨st', effs⟩ <;> simp only [hw]
        · simp
        · have h1 := wsOut_close_count st k st' effs hw
          have h2 := ih st'
          show (effs ++ (keyLoop st' ks).2).count _ + ((keyLoop st' ks).1).sockOpen.toNat = _
          rw [List.count_append]
          omega
      · simp

/-- Outbound-loop effects are never the terminal probe. -/
lemma keyEffOk_not_probe : ∀ e : Effect, keyEffOk e = true → isProbe e = false
  | .display _, h => Bool.noConfusion h
  | .consolePrint _, _ => rfl
  | .sockShutdown, _ => rfl
  | .sockClose, _ => rfl
  | .stopListening, _ => rfl
  | .wireSend (.text _), h => Bool.noConfusion h
  | .wireSend (.binary _), _ => rfl
  | .probe, h => Bool.noConfusion h

/-- Inbound-loop effects are never the terminal probe. -/
lemma inEffOk_not_probe : ∀ e : Effect, inEffOk e = true → isProbe e = false
  | .display _, _ => rfl
  | .consolePrint _, _ => rfl
  | .sockShutdown, h => Bool.noConfusion h
  | .sockClose, h => Bool.noConfusion h
  | .stopListening, h => Bool.noConfusion h
  | .wireSend _, h => Bool.noConfusion h
  | .probe, h => Bool.noConfusion h

/-! ## Claim theorems -/

/-- C1: for every logical key of the mapping table (and any other literal
key whose characters all fit in a byte), the outbound binary keystroke
frame is a single `0x00` byte prepended to the key's mapped byte sequence,
each byte one 8-bit unit; in particular every arrow key yields two leading
NUL bytes (`0x00 0x00 0x1b '[' letter`). -/
theorem keystroke_frame_is_nul_plus_mapped :
    (∀ key k, key ≠ "" → mapKey key = some k → (∀ c ∈ k.data, c.toNat ≤ 255) →
       wsOut activeState key
         = .ok (activeState, [.wireSend (.binary (0 :: k.data.map Char.toNat))]))
  ∧ wsOut activeState "enter" = .ok (activeState, [.wireSend (.binary [0, 10])])
  ∧ wsOut activeState "space" = .ok (activeState, [.wireSend (.binary [0, 32])])
  ∧ wsOut activeState "tab" = .ok (activeState, [.wireSend (.binary [0, 9])])
  ∧ wsOut activeState "up" = .ok (activeState, [.wireSend (.binary [0, 0, 27, 91, 65])])
  ∧ wsOut activeState "down" = .ok (activeState, [.wireSend (.binary [0, 0, 27, 91, 66])])
  ∧ wsOut activeState "right" = .ok (activeState, [.wireSend (.binary [0, 0, 27, 91, 67])])
  ∧ wsOut activeState "left" = .ok (activeState, [.wireSend (.binary [0, 0, 27, 91, 68])])
  ∧ wsOut activeState "backspace" = .ok (activeState, [.wireSend (.binary [0, 8])])
  ∧ wsOut activeState "h" = .ok (activeState, [.wireSend (.binary [0, 104])]) := by
  refine ⟨?_, rfl, rfl, rfl, rfl, rfl, rfl, rfl, rfl, rfl⟩
  intro key k hne hmap hall
  have hb := ordBytes_le255 k hall
  unfold wsOut
  rw [if_pos (show activeState.connected = true from rfl), if_neg hne, hmap]
  show (match ordBytes ('\x00' :: k.data) with
      | none => Except.error Err.valueError
      | some bytes =>
        if activeState.transportUp = true then
          Except.ok (activeState, [Effect.wireSend (Frame.binary bytes)])
        else Except.ok (activeState, [Effect.consolePrint keyErrMsg]))
    = Except.ok (activeState, [Effect.wireSend (Frame.binary (0 :: k.data.map Char.toNat))])
  rw [hb]
  rfl

/-- C1 witness: a concrete literal key goes out as `0x00` plus its byte. -/
theorem keystroke_frame_is_nul_plus_mapped_witness :
    wsOut activeState "x" = .ok (activeState, [.wireSend (.binary [0, 120])]) :=
  keystroke_frame_is_nul_plus_mapped.1 "x" "x" (by decide) rfl (by decide)

/-- C3: the `~` sentinel never puts a keystroke frame on the wire; when the
session is live it prints the exit notice, forcibly shuts down the raw
socket and stops the keyboard listener. -/
theorem sentinel_never_sends :
    (∀ st st' effs, wsOut st "~" = .ok (st', effs) →
       effs.all (fun e => !(isWireSend e)) = true)
  ∧ (∀ st, st.connected = true → st.sockOpen = true →
       wsOut st "~" = .ok ({ st with sockOpen := false, listening := false },
         [.consolePrint exitMsg, .sockShutdown, .sockClose, .stopListening])) := by
  constructor
  · rintro ⟨c, so, tu, l⟩ st' effs h
    cases c with
    | false =>
        rw [show wsOut ⟨false, so, tu, l⟩ "~" = .ok (⟨false, so, tu, l⟩, []) from rfl] at h
        have h2 := congrArg Prod.snd (Except.ok.inj h)
        subst h2
        rfl
    | true =>
        cases so with
        | false =>
            rw [show wsOut ⟨true, false, tu, l⟩ "~" = .error .osError from rfl] at h
            exact Except.noConfusion h
        | true =>
            rw [show wsOut ⟨true, true, tu, l⟩ "~"
                  = .ok (⟨true, false, tu, false⟩,
                      [.consolePrint exitMsg, .sockShutdown, .sockClose, .stopListening])
                from rfl] at h
            have h2 := congrArg Prod.snd (Except.ok.inj h)
            subst h2
            rfl
  · rintro ⟨c, so, tu, l⟩ hc hso
    cases hc
    cases hso
    rfl

/-- C3 witness: the sentinel on a live session — no wire send among its
effects, and the exit/shutdown/stop effects in order. -/
theorem sentinel_never_sends_witness :
    wsOut activeState "~"
      = .ok (⟨true, false, true, false⟩,
          [.consolePrint exitMsg, .sockShutdown, .sockClose, .stopListening])
  ∧ ([Effect.consolePrint exitMsg, .sockShutdown, .sockClose,
        .stopListening].all (fun e => !(isWireSend e)) = true) :=
  ⟨sentinel_never_sends.2 activeState rfl rfl,
   sentinel_never_sends.1 activeState ⟨true, false, true, false⟩ _
     (sentinel_never_sends.2 activeState rfl rfl)⟩

/-- C5: on every newly connected session and for every sequence of key
events, the resize frame is the first frame on the wire; every keystroke
(binary) frame comes strictly after it. -/
theorem resize_frame_sent_first (env : Option (Nat × Nat)) (keys : List String) :
    ∃ rest, sessionWireFrames env keys
        = .text (resizeFrame (ptySize env).1 (ptySize env).2) :: rest
      ∧ rest.all isBinaryFrame = true := by
  refine ⟨wireFrames (keyLoop activeState keys).2, sessionWireFrames_eq env keys, ?_⟩
  exact wireFrames_binary _ (keyLoop_keyEffOk keys activeState)

/-- C5 witness: the resize frame leads the wire frames of a concrete
session. -/
theorem resize_frame_sent_first_witness :
    ∃ rest, sessionWireFrames (some (120, 40)) ["h", "~"]
        = .text (resizeFrame (ptySize (some (120, 40))).1 (ptySize (some (120, 40))).2) :: rest
      ∧ rest.all isBinaryFrame = true :=
  resize_frame_sent_first (some (120, 40)) ["h", "~"]

/-- C4 counterexample: triggering the exit sentinel twice is not a pair of
idempotent closes.  The first trigger closes the raw socket but leaves
`ws.connected` true (the code never calls the WebSocket-level close), so
the second trigger passes the guard and its `sock.shutdown(2)` raises an
uncaught `OSError` on the closed socket — not a no-op. -/
theorem close_second_trigger_raises :
    wsOut activeState "~"
      = .ok (⟨true, false, true, false⟩,
          [.consolePrint exitMsg, .sockShutdown, .sockClose, .stopListening])
  ∧ wsOut ⟨true, false, true, false⟩ "~" = .error .osError := ⟨rfl, rfl⟩

/-- C4 amended: the transport observes at most one `sock.close()` over any
key sequence (the sentinel also stops the listener, so no further events
are delivered), and the inbound loop never closes the connection at all;
but close is not idempotent — a sentinel reaching `_ws_out` when the raw
socket is already closed raises an uncaught `OSError` instead of being a
no-op. -/
theorem close_at_most_once :
    (∀ keys, (keyLoop activeState keys).2.count Effect.sockClose ≤ 1)
  ∧ (∀ script, (wsIn script).1.count Effect.sockClose = 0)
  ∧ (∀ st, st.connected = true → st.sockOpen = false →
       wsOut st "~" = .error .osError) := by
  refine ⟨?_, ?_, ?_⟩
  · intro keys
    have h := keyLoop_close_count keys activeState
    have : (activeState.sockOpen).toNat = 1 := rfl
    omega
  · intro script
    rw [List.count_eq_zero]
    intro hmem
    have h := wsIn_inEffOk script
    rw [List.all_eq_true] at h
    exact Bool.noConfusion (h _ hmem)
  · rintro ⟨c, so, tu, l⟩ hc hso
    cases hc
    cases hso
    rfl

/-- C4 witness: at most one close over the double-sentinel sequence, and
the post-close sentinel raising, at concrete inputs. -/
theorem close_at_most_once_witness :
    (keyLoop activeState ["~", "~"]).2.count Effect.sockClose ≤ 1
  ∧ wsOut ⟨true, false, true, false⟩ "~" = .error .osError :=
  ⟨close_at_most_once.1 ["~", "~"],
   close_at_most_once.2.2 ⟨true, false, true, false⟩ rfl rfl⟩

/-- C6 counterexample: a failing keystroke send is logged and not retried,
but no teardown follows — the callback returns with the keyboard listener
still running and the connection handle untouched (no `stop_listening`, no
socket close), so the session does not transition to Closing→Closed. -/
theorem send_failure_no_teardown :
    wsOut ⟨true, true, false, true⟩ "a"
      = .ok (⟨true, true, false, true⟩, [.consolePrint keyErrMsg])
  ∧ (⟨true, true, false, true⟩ : OutState).listening = true
  ∧ (⟨true, true, false, true⟩ : OutState).sockOpen = true
  ∧ [Effect.consolePrint keyErrMsg].count Effect.stopListening = 0
  ∧ [Effect.consolePrint keyErrMsg].count Effect.sockClose = 0 :=
  ⟨rfl, rfl, rfl, by decide, by decide⟩

/-- C6 amended: when a keystroke send fails mid-session, `_ws_out` catches
the exception, prints the key-thread diagnostic and returns without retry —
and without any teardown: the state (listener, raw socket, connection
flag) is exactly what it was before the callback. -/
theorem send_failure_logged_only :
    ∀ st key k, st.connected = true → st.transportUp = false → key ≠ "" →
      mapKey key = some k → (∀ c ∈ k.data, c.toNat ≤ 255) →
      wsOut st key = .ok (st, [.consolePrint keyErrMsg]) := by
  rintro ⟨c, so, tu, l⟩ key k hc htu hne hmap hall
  cases hc
  cases htu
  have hb := ordBytes_le255 k hall
  unfold wsOut
  rw [if_pos (show (true : Bool) = true from rfl), if_neg hne, hmap]
  show (match ordBytes ('\x00' :: k.data) with
      | none => Except.error Err.valueError
      | some bytes =>
        if (false : Bool) = true then
          Except.ok ((⟨true, so, false, l⟩ : OutState), [Effect.wireSend (Frame.binary bytes)])
        else Except.ok ((⟨true, so, false, l⟩ : OutState), [Effect.consolePrint keyErrMsg]))
    = Except.ok ((⟨true, so, false, l⟩ : OutState), [Effect.consolePrint keyErrMsg])
  rw [hb]
  rfl

/-- C6 witness: the amended behaviour at a concrete key and state. -/
theorem send_failure_logged_only_witness :
    wsOut ⟨true, true, false, true⟩ "q"
      = .ok (⟨true, true, false, true⟩, [.consolePrint keyErrMsg]) :=
  send_failure_logged_only ⟨true, true, false, true⟩ "q" "q" rfl rfl (by decide) rfl (by decide)

/-- C10: keystroke encoding is Latin-1-style — the payload is `0x00`
followed by the characters' code points, total only when every code point
fits in a byte; a key containing a character above U+00FF makes the
`bytearray` conversion raise a `ValueError` outside the `try` that guards
only `send_binary`, so no frame is sent and nothing catches the failure.
(`é` goes out as its code point `0xE9`, which by itself is not even valid
UTF-8 — the code does not UTF-8-encode keys.) -/
theorem keystroke_bytes_are_code_points :
    (∀ key k, key ≠ "" → mapKey key = some k → (∃ c ∈ k.data, 255 < c.toNat) →
       wsOut activeState key = .error .valueError)
  ∧ wsOut activeState "é" = .ok (activeState, [.wireSend (.binary [0, 233])])
  ∧ wsOut activeState "€" = .error .valueError
  ∧ utf8Decode [233] = none := by
  refine ⟨?_, rfl, rfl, rfl⟩
  intro key k hne hmap hex
  have hb := ordBytes_gt255 k hex
  unfold wsOut
  rw [if_pos (show activeState.connected = true from rfl), if_neg hne, hmap]
  show (match ordBytes ('\x00' :: k.data) with
      | none => Except.error Err.valueError
      | some bytes =>
        if activeState.transportUp = true then
          Except.ok (activeState, [Effect.wireSend (Frame.binary bytes)])
        else Except.ok (activeState, [Effect.consolePrint keyErrMsg]))
    = Except.error Err.valueError
  rw [hb]

/-- C10 witness: the euro sign (U+20AC) raises before any send. -/
theorem keystroke_bytes_are_code_points_witness :
    wsOut activeState "€" = .error .valueError :=
  keystroke_bytes_are_code_points.1 "€" "€" (by decide) rfl ⟨'€', by decide, by decide⟩

/-- C2 counterexample: an invalid-UTF-8 chunk does not merely get skipped —
the bare `except:` catches the `UnicodeDecodeError` and `return`s, ending
the inbound loop, so a valid chunk following it is never received or
displayed.  The session's inbound side does terminate on a single
malformed chunk. -/
theorem malformed_chunk_stops_inbound_loop :
    decodeInbound [255] = none
  ∧ decodeInbound [104, 105] = some [104, 105]
  ∧ wsIn [.chunk [255], .chunk [104, 105]] = ([.consolePrint listenErrMsg], true) :=
  ⟨rfl, rfl, rfl⟩

/-- C2 amended: decoding strips all `0x00` bytes and passes every other
valid UTF-8 byte through unchanged (decoding the chunk and dropping U+0000
equals decoding the chunk with its `0x00` bytes removed), and each
successfully decoded chunk is displayed as is; but a chunk that fails
UTF-8 decoding is not merely skipped: the failure is caught (no exception
propagates) and logged, and the inbound loop exits, ignoring everything
after the malformed chunk.  The `\x00hello\x00world` golden case displays
`helloworld`. -/
theorem decode_strips_nul_and_failure_exits :
    (∀ raw cps, utf8Decode raw = some cps →
       decodeInbound raw = utf8Decode (raw.filter (fun b => b ≠ 0)))
  ∧ (∀ bytes out rest, bytes ≠ [] → decodeInbound bytes = some out →
       wsIn (.chunk bytes :: rest) = (.display out :: (wsIn rest).1, (wsIn rest).2))
  ∧ (∀ bytes rest, bytes ≠ [] → decodeInbound bytes = none →
       wsIn (.chunk bytes :: rest) = ([.consolePrint listenErrMsg], true))
  ∧ decodeInbound [0, 104, 101, 108, 108, 111, 0, 119, 111, 114, 108, 100]
      = some [104, 101, 108, 108, 111, 119, 111, 114, 108, 100] := by
  refine ⟨?_, ?_, ?_, rfl⟩
  · intro raw cps h
    rw [utf8Decode_filter_nz raw cps h, decodeInbound, h]
    rfl
  · intro bytes out rest hne hdec
    rcases hrest : wsIn rest with ⟨effs, exited⟩
    show (if bytes = [] then wsIn rest
          else match decodeInbound bytes with
            | none => ([Effect.consolePrint listenErrMsg], true)
            | some o =>
              match wsIn rest with
              | (es, ex) => (Effect.display o :: es, ex))
        = (Effect.display out :: (effs, exited).1, (effs, exited).2)
    rw [if_neg hne, hdec, hrest]
  · intro bytes rest hne hdec
    show (if bytes = [] then wsIn rest
          else match decodeInbound bytes with
            | none => ([Effect.consolePrint listenErrMsg], true)
            | some o =>
              match wsIn rest with
              | (es, ex) => (Effect.display o :: es, ex))
        = ([Effect.consolePrint listenErrMsg], true)
    rw [if_neg hne, hdec]

/-- C2 amended witness: the strip/pass-through equation, the display of a
valid chunk, and the loop exit on a malformed chunk, at concrete chunks. -/
theorem decode_strips_nul_and_failure_exits_witness :
    decodeInbound [0, 104, 101, 108, 108, 111, 0, 119, 111, 114, 108, 100]
      = utf8Decode (([0, 104, 101, 108, 108, 111, 0, 119, 111, 114, 108, 100] : List Nat).filter
          (fun b => b ≠ 0))
  ∧ wsIn [.chunk [0, 104], .chunk [105]]
      = (.display [104] :: (wsIn [RecvResult.chunk [105]]).1, (wsIn [RecvResult.chunk [105]]).2)
  ∧ wsIn [.chunk [255], .chunk [104, 105]] = ([.consolePrint listenErrMsg], true) :=
  ⟨decode_strips_nul_and_failure_exits.1 _
     [0, 104, 101, 108, 108, 111, 0, 119, 111, 114, 108, 100] rfl,
   decode_strips_nul_and_failure_exits.2.1 [0, 104] [104] [.chunk [105]] (by decide) rfl,
   decode_strips_nul_and_failure_exits.2.2.1 [255] [.chunk [104, 105]] (by decide) rfl⟩

/-- C7: when the Nth `recv` fails, the inbound loop prints the
listen-thread diagnostic and exits right there — nothing after the failing
call is processed; its whole effect trace consists of displays and console
prints only (so it neither closes the connection nor touches the other
loop); and once the transport is down, the next send attempt in the
outbound loop fails and is observed there (caught and logged as lost
connection). -/
theorem recv_failure_exits_within_one_iteration :
    (∀ (pre : List (List Nat)) (rest : List RecvResult),
       (∀ b ∈ pre, b ≠ [] ∧ (decodeInbound b).isSome = true) →
       wsIn (pre.map RecvResult.chunk ++ RecvResult.recvError :: rest)
         = (pre.map (fun b => Effect.display ((decodeInbound b).getD []))
              ++ [.consolePrint listenErrMsg], true))
  ∧ (∀ script, (wsIn script).1.all inEffOk = true)
  ∧ (∀ st key k, st.connected = true → st.transportUp = false → key ≠ "" →
       mapKey key = some k → (∀ c ∈ k.data, c.toNat ≤ 255) →
       wsOut st key = .ok (st, [.consolePrint keyErrMsg])) := by
  refine ⟨?_, wsIn_inEffOk, ?_⟩
  · intro pre
    induction pre with
    | nil => intro rest h; rfl
    | cons b pre ih =>
        intro rest h
        obtain ⟨hb, hdec⟩ := h b (List.mem_cons_self b pre)
        obtain ⟨out, hout⟩ := Option.isSome_iff_exists.mp hdec
        have hmid := ih rest (fun x hx => h x (List.mem_cons_of_mem b hx))
        simp only [List.map_cons, List.cons_append]
        show (if b = [] then wsIn (pre.map RecvResult.chunk ++ RecvResult.recvError :: rest)
              else match decodeInbound b with
                | none => ([Effect.consolePrint listenErrMsg], true)
                | some o =>
                  match wsIn (pre.map RecvResult.chunk ++ RecvResult.recvError :: rest) with
                  | (es, ex) => (Effect.display o :: es, ex))
            = (Effect.display ((decodeInbound b).getD [])
                :: (pre.map (fun x => Effect.display ((decodeInbound x).getD []))
                      ++ [Effect.consolePrint listenErrMsg]), true)
        rw [if_neg hb, hout, hmid]
        rfl
  · rintro ⟨c, so, tu, l⟩ key k hc htu hne hmap hall
    cases hc
    cases htu
    have hb := ordBytes_le255 k hall
    unfold wsOut
    rw [if_pos (show (true : Bool) = true from rfl), if_neg hne, hmap]
    show (match ordBytes ('\x00' :: k.data) with
        | none => Except.error Err.valueError
        | some bytes =>
          if (false : Bool) = true then
            Except.ok ((⟨true, so, false, l⟩ : OutState), [Effect.wireSend (Frame.binary bytes)])
          else Except.ok ((⟨true, so, false, l⟩ : OutState), [Effect.consolePrint keyErrMsg]))
      = Except.ok ((⟨true, so, false, l⟩ : OutState), [Effect.consolePrint keyErrMsg])
    rw [hb]
    rfl

/-- C7 witness: one good chunk, then a failing second `recv`; and a
concrete failed send observed in the outbound loop. -/
theorem recv_failure_exits_within_one_iteration_witness :
    wsIn [.chunk [104], .recvError]
      = ([.display [104], .consolePrint listenErrMsg], true)
  ∧ wsOut ⟨true, true, false, true⟩ "z"
      = .ok (⟨true, true, false, true⟩, [.consolePrint keyErrMsg]) :=
  ⟨recv_failure_exits_within_one_iteration.1 [[104]] [] (by decide),
   recv_failure_exits_within_one_iteration.2.2 ⟨true, true, false, true⟩ "z" "z"
     rfl rfl (by decide) rfl (by decide)⟩

/-- C8: the resize frame sent at session start, for any probed terminal
size, is exactly the `json.dumps` serialization of the structured object
`\x7b"resize": \x7b"width": cols, "height": rows\x7d\x7d` the spec
requires — and for a 120×40 terminal the emitted text is JSON-equal
(whitespace aside, values exact) to the spec's
`\x7b"resize":\x7b"width":120,"height":40\x7d\x7d`. -/
theorem resize_frame_matches_spec :
    (∀ rows cols, resizeValue rows cols = specResizeValue rows cols)
  ∧ (∀ env keys, (sessionWireFrames env keys).head?
      = some (.text (dumps (specResizeValue (ptySize env).1 (ptySize env).2))))
  ∧ (∀ keys, (sessionWireFrames (some (120, 40)) keys).head?
      = some (.text (resizeFrame 40 120)))
  ∧ stripSpaces (resizeFrame 40 120) = specResizeFrame 40 120 := by
  refine ⟨fun _ _ => rfl, ?_, ?_, by decide⟩
  · intro env keys
    rw [sessionWireFrames_eq env keys]
    rfl
  · intro keys
    rw [sessionWireFrames_eq (some (120, 40)) keys]
    rfl

/-- C8 witness: the 120×40 scenario's first frame. -/
theorem resize_frame_matches_spec_witness :
    (sessionWireFrames (some (120, 40)) []).head? = some (.text (resizeFrame 40 120)) :=
  resize_frame_matches_spec.2.2.1 []

/-- C9: `_pty_size` returns the local terminal's `(rows, cols)`; when the
terminal size is unavailable `shutil.get_terminal_size`'s default makes it
`(24, 80)` — 80 columns by 24 rows; it is a pure query in this model; and a
whole session trace performs the probe exactly once, as its very first
action. -/
theorem pty_size_once_with_fallback :
    (∀ cols rows, ptySize (some (cols, rows)) = (rows, cols))
  ∧ ptySize none = (24, 80)
  ∧ (∀ env keys script, (sessionTrace env keys script).filter isProbe = [.probe])
  ∧ (∀ env keys script, (sessionTrace env keys script).head? = some .probe) := by
  refine ⟨fun _ _ => rfl, rfl, ?_, fun _ _ _ => rfl⟩
  intro env keys script
  rw [sessionTrace, sessionOutEffects, List.append_assoc, List.filter_append,
      show (resizeEffects env).filter isProbe = [.probe] from rfl, List.filter_append]
  have hk : ((keyLoop activeState keys).2).filter isProbe = [] := by
    rw [List.filter_eq_nil_iff]
    intro e he
    have h := keyLoop_keyEffOk keys activeState
    rw [List.all_eq_true] at h
    rw [keyEffOk_not_probe e (h e he)]
    exact Bool.false_ne_true
  have hi : ((wsIn script).1).filter isProbe = [] := by
    rw [List.filter_eq_nil_iff]
    intro e he
    have h := wsIn_inEffOk script
    rw [List.all_eq_true] at h
    rw [inEffOk_not_probe e (h e he)]
    exact Bool.false_ne_true
  rw [hk, hi]
  rfl

/-- C9 witness: the probed size and the single probe of a concrete session. -/
theorem pty_size_once_with_fallback_witness :
    ptySize (some (120, 40)) = (40, 120)
  ∧ (sessionTrace (some (120, 40)) ["h"] [.chunk [104]]).filter isProbe = [.probe] :=
  ⟨pty_size_once_with_fallback.1 120 40,
   pty_size_once_with_fallback.2.2.1 (some (120, 40)) ["h"] [.chunk [104]]⟩

end RemoteShell
